import Mathlib

/-!
# Verification of the supereight2 mapping core against its specification

This development shallowly embeds the integration kernels, the multi-resolution
voxel-block operations and the octree store of the supereight2 dense-SLAM
library, and proves (or refutes) the specification claims about them.

Conventions of the embedding:
* C++ `float` arithmetic is modelled exactly over `ℚ`; all the verified
  formulas are algebraic identities of the source expressions.
* C++ in-place mutation is modelled by explicit state passing; pointer
  aliasing between the mean/min/max pyramids of an occupancy block is
  modelled by performing the shared write once and using the written value
  in every alias position (noted at each definition concerned).
* Fallible operations return `Option`/`Bool` exactly as the source does.
-/

namespace SE

/-- `se::math::clamp(x, lo, hi)`. -/
def mclamp (x lo hi : ℚ) : ℚ := min (max x lo) hi

/-- `se::math::cu(x)`: the cube of an integer. -/
def cu (x : ℤ) : ℤ := x * x * x

/-- TSDF voxel data (`Data<Field::TSDF, ...>`): `tsdf` value and `weight`. -/
structure TsdfData where
  tsdf : ℚ
  weight : ℚ
deriving DecidableEq, Repr

/-- TSDF per-voxel propagation data (`delta_tsdf`, `delta_weight`). -/
structure TsdfPropData where
  delta_tsdf : ℚ
  delta_weight : ℚ
deriving DecidableEq, Repr

/-- The pair of current and past-shadow TSDF data carried by
`BlockMultiRes<TSDF>::DataUnion` (the coordinate/index bookkeeping of the
C++ struct is orthogonal to the update and omitted). -/
structure TsdfDataUnion where
  data : TsdfData
  prop_data : TsdfPropData
deriving DecidableEq, Repr

/-- `Updater<Map<TSDF, Multi>>::updateVoxel` from
`multires_tsdf_updater.hpp`: fuse `sdf_value` into the voxel when it is
in front of the back-truncation boundary, otherwise leave it unchanged. -/
def tsdfUpdateVoxel (du : TsdfDataUnion) (sdf_value truncation_boundary max_weight : ℚ) :
    TsdfDataUnion :=
  if sdf_value > -truncation_boundary then
    let tsdf_value := min 1 (sdf_value / truncation_boundary)
    let fused := (du.data.tsdf * du.data.weight + tsdf_value) / (du.data.weight + 1)
    { data := { tsdf := mclamp fused (-1) 1,
                weight := min (du.data.weight + 1) max_weight },
      prop_data := { du.prop_data with
                     delta_weight := du.prop_data.delta_weight + 1 } }
  else
    du

/-- C1: in a multi-res TSDF voxel update with truncation boundary `τ > 0`,
an in-band sample (`sdf > -τ`) stores
`clamp((value·weight + clamp(sdf/τ,-1,1)) / (weight+1), -1, 1)` and weight
`min(weight+1, W_max)`; an out-of-band sample (`sdf ≤ -τ`) leaves the voxel
data unchanged. -/
theorem tsdf_updateVoxel_spec (du : TsdfDataUnion) (sdf tau w_max : ℚ) (htau : 0 < tau) :
    (sdf > -tau →
      (tsdfUpdateVoxel du sdf tau w_max).data.tsdf =
        mclamp ((du.data.tsdf * du.data.weight + mclamp (sdf / tau) (-1) 1) /
          (du.data.weight + 1)) (-1) 1 ∧
      (tsdfUpdateVoxel du sdf tau w_max).data.weight = min (du.data.weight + 1) w_max) ∧
    (sdf ≤ -tau → tsdfUpdateVoxel du sdf tau w_max = du) := by
  constructor
  · intro hband
    have hlow : (-1 : ℚ) < sdf / tau := by
      rw [lt_div_iff₀ htau]
      linarith
    have hmax : max (sdf / tau) (-1) = sdf / tau := max_eq_left (le_of_lt hlow)
    unfold tsdfUpdateVoxel mclamp
    rw [if_pos hband]
    refine ⟨?_, rfl⟩
    simp only [hmax]
    rw [min_comm 1 (sdf / tau)]
  · intro hout
    unfold tsdfUpdateVoxel
    rw [if_neg (by linarith)]

/-- Witness for C1 at concrete inputs. -/
theorem tsdf_updateVoxel_spec_witness :
    (0 : ℚ) < 2 ∧
    ((1 > -(2 : ℚ) →
      (tsdfUpdateVoxel ⟨⟨0, 0⟩, ⟨0, 0⟩⟩ 1 2 100).data.tsdf =
        mclamp ((0 * 0 + mclamp (1 / 2) (-1) 1) / (0 + 1)) (-1) 1 ∧
      (tsdfUpdateVoxel ⟨⟨0, 0⟩, ⟨0, 0⟩⟩ 1 2 100).data.weight = min (0 + 1) 100) ∧
    ((1 : ℚ) ≤ -2 → tsdfUpdateVoxel ⟨⟨0, 0⟩, ⟨0, 0⟩⟩ 1 2 100 = ⟨⟨0, 0⟩, ⟨0, 0⟩⟩)) :=
  ⟨by norm_num, tsdf_updateVoxel_spec ⟨⟨0, 0⟩, ⟨0, 0⟩⟩ 1 2 100 (by norm_num)⟩

/-! ## Occupancy data and the ray-integrator voxel update -/

/-- Occupancy voxel data (`Data<Field::Occupancy, ...>`): mean log-odds
`occupancy`, `weight` and the `observed` flag. -/
structure OccData where
  occupancy : ℚ
  weight : ℚ
  observed : Bool
deriving DecidableEq, Repr

/-- The occupancy part of the data configuration (`log_odd_min`,
`log_odd_max`, `max_weight`). -/
structure OccFieldConfig where
  log_odd_min : ℚ
  log_odd_max : ℚ
  max_weight : ℚ
deriving DecidableEq, Repr

/-- Modelled from the spec: the occupancy `field.update(sample, max_weight)`
fusion called by the updaters; its definition (`data_occupancy.hpp`) is not
among the provided sources. Per §3 and §4.5 of the spec the stored
occupancy is the running mean of the fused log-odds samples, the weight is
incremented by one saturated at `W_max`, and `observed` is set. -/
def occFieldUpdate (d : OccData) (sample max_weight : ℚ) : OccData :=
  { occupancy := (d.occupancy * d.weight + sample) / (d.weight + 1),
    weight := min (d.weight + 1) max_weight,
    observed := true }

/-- Modelled from the spec: `get_field` of occupancy data, the saturated
log-odds `occupancy · weight` used by the propagator and the pruning test
(`data_occupancy.hpp` is not among the provided sources; §4.6 of the spec
uses `mean·weight` and the in-source caller multiplies `occupancy * weight`). -/
def getField (d : OccData) : ℚ := d.occupancy * d.weight

/-- `ray_integrator::update_voxel` from `ray_integrator_core_impl.hpp`:
select the piecewise log-odds sample from `range_diff` and fuse it, or do
nothing at all when `range_diff ≥ tau`. Returns the updated data and
whether the voxel was newly observed. -/
def rayUpdateVoxel (data : OccData) (range_diff tau three_sigma : ℚ)
    (config : OccFieldConfig) : OccData × Bool :=
  if range_diff < -three_sigma then
    (occFieldUpdate data config.log_odd_min config.max_weight, !data.observed)
  else if range_diff < tau / 2 then
    (occFieldUpdate data
      (min (config.log_odd_min - config.log_odd_min / three_sigma * (range_diff + three_sigma))
        config.log_odd_max)
      config.max_weight, !data.observed)
  else if range_diff < tau then
    (occFieldUpdate data
      (min (-config.log_odd_min * tau / (2 * three_sigma)) config.log_odd_max)
      config.max_weight, !data.observed)
  else
    (data, false)

/-- C3: the occupancy ray update fuses `log_odd_min` for
`range_diff < -3σ`, the capped linear ramp
`min(log_odd_min - (log_odd_min/3σ)·(range_diff+3σ), log_odd_max)` on
`[-3σ, τ/2)`, the capped constant `min(-log_odd_min·τ/(2·3σ), log_odd_max)`
on `[τ/2, τ)`, and leaves the voxel data unchanged for `range_diff ≥ τ`. -/
theorem rayUpdateVoxel_spec (data : OccData) (rd tau ts : ℚ) (config : OccFieldConfig)
    (htau : 0 ≤ tau) (hts : 0 ≤ ts) :
    (rd < -ts →
      rayUpdateVoxel data rd tau ts config =
        (occFieldUpdate data config.log_odd_min config.max_weight, !data.observed)) ∧
    (-ts ≤ rd → rd < tau / 2 →
      rayUpdateVoxel data rd tau ts config =
        (occFieldUpdate data
          (min (config.log_odd_min - config.log_odd_min / ts * (rd + ts)) config.log_odd_max)
          config.max_weight, !data.observed)) ∧
    (tau / 2 ≤ rd → rd < tau →
      rayUpdateVoxel data rd tau ts config =
        (occFieldUpdate data
          (min (-config.log_odd_min * tau / (2 * ts)) config.log_odd_max)
          config.max_weight, !data.observed)) ∧
    (tau ≤ rd → rayUpdateVoxel data rd tau ts config = (data, false)) := by
  refine ⟨?_, ?_, ?_, ?_⟩
  · intro h
    unfold rayUpdateVoxel
    rw [if_pos h]
  · intro h1 h2
    unfold rayUpdateVoxel
    rw [if_neg (by linarith), if_pos h2]
  · intro h1 h2
    unfold rayUpdateVoxel
    rw [if_neg (by linarith), if_neg (by linarith), if_pos h2]
  · intro h
    unfold rayUpdateVoxel
    rw [if_neg (by linarith), if_neg (by linarith), if_neg (by linarith)]

/-- Witness for C3 at concrete inputs (the `[τ/2, τ)` branch with
`rd = 3`, `τ = 4`, `3σ = 1`). -/
theorem rayUpdateVoxel_spec_witness :
    ((0 : ℚ) ≤ 4 ∧ (0 : ℚ) ≤ 1 ∧ (4 : ℚ) / 2 ≤ 3 ∧ (3 : ℚ) < 4) ∧
    rayUpdateVoxel ⟨0, 0, false⟩ 3 4 1 ⟨-5, 5, 100⟩ =
      (occFieldUpdate ⟨0, 0, false⟩ (min (-(-5 : ℚ) * 4 / (2 * 1)) 5) 100, !false) :=
  ⟨⟨by norm_num, by norm_num, by norm_num, by norm_num⟩,
    ((rayUpdateVoxel_spec ⟨0, 0, false⟩ 3 4 1 ⟨-5, 5, 100⟩ (by norm_num)
      (by norm_num)).2.2.1 (by norm_num) (by norm_num))⟩

/-! ## The multi-resolution occupancy block (`BlockMultiRes<Occupancy>`)

The C++ block owns three parallel scale pyramids (`block_data_`,
`block_min_data_`, `block_max_data_`; entry `i` of each vector holds the
array of scale `max_scale - i`), a buffer pyramid used while a scale change
is being ratified, and the four integration counters.  Pointer aliasing in
the C++ object (mean/min/max share one array at the finest scale, and the
buffer aliases the mean array when `buffer_scale_ >= current_scale`) is
modelled by performing each shared write once and storing the written value
at every alias position. -/

instance : Inhabited OccData := ⟨⟨0, 0, false⟩⟩

structure OccBlock where
  /-- The `BlockSize` template parameter (side of the block in voxels). -/
  blockSize : ℕ
  /-- `max_scale = log2 BlockSize`. -/
  maxScale : ℕ
  /-- The block's voxel coordinates (`coord` of the underlying octant). -/
  coord : ℤ × ℤ × ℤ
  /-- `init_data_`. -/
  initData : OccData
  /-- `block_data_`: entry `i` holds the mean data of scale `maxScale - i`. -/
  blockData : List (List OccData)
  /-- `block_min_data_`. -/
  blockMinData : List (List OccData)
  /-- `block_max_data_`. -/
  blockMaxData : List (List OccData)
  /-- `buffer_data_`; `none` models the null pointer.  When
  `bufferScale ≥ currentScale` the C++ pointer aliases the mean pyramid and
  the operations below read the buffer through `blockData`. -/
  bufferData : Option (List OccData)
  /-- `buffer_scale_` (`-1` when no buffer is active). -/
  bufferScale : ℤ
  /-- `current_scale`. -/
  currentScale : ℕ
  /-- `min_scale` (`-1` before the first integration). -/
  minScale : ℤ
  /-- `curr_integr_count_`. -/
  currIntegrCount : ℕ
  /-- `curr_observed_count_`. -/
  currObservedCount : ℕ
  /-- `buffer_integr_count_`. -/
  bufferIntegrCount : ℕ
  /-- `buffer_observed_count_`. -/
  bufferObservedCount : ℕ
  /-- `curr_data_` (the mean array at the current scale). -/
  currData : List OccData
deriving DecidableEq, Repr

/-- `BlockMultiRes<Occupancy>::getVoxelIdx(voxel_coord, scale)`:
`voxel_offset = (voxel_coord - coord) / (1 << scale)` (truncating integer
division) and row-major linearisation with `size_at_scale = BlockSize >> scale`. -/
def occGetVoxelIdx (b : OccBlock) (voxel : ℤ × ℤ × ℤ) (scale : ℕ) : ℤ :=
  let ox := (voxel.1 - b.coord.1).tdiv (2 ^ scale)
  let oy := (voxel.2.1 - b.coord.2.1).tdiv (2 ^ scale)
  let oz := (voxel.2.2 - b.coord.2.2).tdiv (2 ^ scale)
  let size_at_scale : ℤ := b.blockSize >>> scale
  ox + oy * size_at_scale + oz * size_at_scale ^ 2

/-- Read the mean array stored for `scale` (entry `maxScale - scale` of
`block_data_`) at a linear index. -/
def occStoredAt (b : OccBlock) (scale : ℕ) (idx : ℤ) : OccData :=
  (b.blockData.getD (b.maxScale - scale) []).getD idx.toNat default

/-- `BlockMultiRes<Occupancy>::data(voxel_coord, scale_in, scale_out)`:
clamp the desired scale to the current scale and read the mean pyramid
there, reporting the scale used. -/
def occDataAtCurrentOrCoarser (b : OccBlock) (voxel : ℤ × ℤ × ℤ) (scale_in : ℕ) :
    OccData × ℕ :=
  let scale_out := max scale_in b.currentScale
  (occStoredAt b scale_out (occGetVoxelIdx b voxel scale_out), scale_out)

/-- `BlockMultiRes<Occupancy>::data(voxel_coord)`: mean data at the current
scale. -/
def occDataAtCurrent (b : OccBlock) (voxel : ℤ × ℤ × ℤ) : OccData :=
  occStoredAt b b.currentScale (occGetVoxelIdx b voxel b.currentScale)

/-- `BlockMultiRes<Occupancy>::maxData(voxel_coord, scale)`: returns
`init_data_` when `scale` is finer than the finest allocated scale
(`max_scale - (block_data_.size() - 1)`), otherwise reads the max pyramid
at `scale`. -/
def occMaxDataAtScale (b : OccBlock) (voxel : ℤ × ℤ × ℤ) (scale : ℕ) : OccData :=
  if b.maxScale - (b.blockData.length - 1) > scale then
    b.initData
  else
    (b.blockMaxData.getD (b.maxScale - scale) []).getD (occGetVoxelIdx b voxel scale).toNat
      default

/-- The volume-coverage test shared by `incrBufferIntegrCount` and
`switchData`:
`buffer_observed_count·(1<<buffer_scale)³ ≥ 0.9·curr_observed_count·(1<<current_scale)³`
(the float factor `0.9` of the source is the exact rational `9/10`). -/
def bufferVolumeCond (b : OccBlock) : Prop :=
  ((b.bufferObservedCount * cu (2 ^ b.bufferScale.toNat) : ℤ) : ℚ) ≥
    9 / 10 * ((b.currObservedCount * cu (2 ^ b.currentScale) : ℤ) : ℚ)

instance (b : OccBlock) : Decidable (bufferVolumeCond b) := by
  unfold bufferVolumeCond
  infer_instance

/-- `BlockMultiRes<Occupancy>::incrBufferIntegrCount(do_increment)`. -/
def incrBufferIntegrCount (b : OccBlock) (do_increment : Bool) : OccBlock :=
  if do_increment = true ∨ bufferVolumeCond b then
    { b with bufferIntegrCount := b.bufferIntegrCount + 1 }
  else
    b

/-- One voxel of the "update observed state" loop of `switchData`: a voxel
with positive weight that is not yet observed becomes observed. -/
def markVoxelObserved (d : OccData) : OccData :=
  if 0 < d.weight ∧ d.observed = false then { d with observed := true } else d

/-- `missed_observed_count` of the `switchData` marking loop. -/
def markMissedCount (l : List OccData) : ℕ :=
  (l.filter fun d => decide (0 < d.weight) && !d.observed).length

/-- `BlockMultiRes<Occupancy>::deleteUpTo(new_min_scale)`: drop every scale
finer than `new_min_scale` and let mean/min/max share one array at the new
finest scale (the C++ frees the separate min/max arrays and stores the mean
pointer in their place). -/
def deleteUpTo (b : OccBlock) (new_min_scale : ℕ) : OccBlock :=
  if b.minScale = -1 ∨ b.minScale ≥ (new_min_scale : ℤ) then b
  else
    let keep := b.maxScale - new_min_scale + 1
    let bd := b.blockData.take keep
    let meanAtMin := bd.getD (keep - 1) []
    { b with
        blockData := bd,
        blockMinData := (b.blockMinData.take keep).set (keep - 1) meanAtMin,
        blockMaxData := (b.blockMaxData.take keep).set (keep - 1) meanAtMin,
        minScale := (new_min_scale : ℤ) }

/-- `BlockMultiRes<Occupancy>::switchData()`.

Ratify the buffer when `buffer_integr_count_ ≥ 20` and the volume test
holds.  To a finer scale the (fresh) buffer array is pushed as the new
finest scale of all three pyramids — which then share it — and fresh
default-constructed min/max arrays replace the previously shared ones at
scale `buffer_scale + 1`; to a coarser (or equal) scale the pyramids are
truncated by `deleteUpTo` and the buffer pointer aliases the retained mean
array.  The marking loop then runs over the buffer array; because of the
aliasing its result is the value held by every pyramid position that shares
the buffer storage, so the model stores the marked array at those
positions.  Finally the current scale, the current-data pointer and the
counters are switched and the buffer is reset. -/
def switchData (b : OccBlock) : OccBlock × Bool :=
  if 20 ≤ b.bufferIntegrCount ∧ bufferVolumeCond b then
    if b.bufferScale < (b.currentScale : ℤ) then
      let buf := b.bufferData.getD []
      let marked := buf.map markVoxelObserved
      let missed := markMissedCount buf
      let shareIdx := b.maxScale - (b.bufferScale.toNat + 1)
      let nvox := (b.blockSize >>> (b.bufferScale.toNat + 1)) ^ 3
      ({ b with
          blockData := b.blockData ++ [marked],
          blockMinData := (b.blockMinData.set shareIdx (List.replicate nvox default)) ++ [marked],
          blockMaxData := (b.blockMaxData.set shareIdx (List.replicate nvox default)) ++ [marked],
          currentScale := b.bufferScale.toNat,
          minScale := b.bufferScale,
          currData := marked,
          currIntegrCount := b.bufferIntegrCount,
          currObservedCount := b.bufferObservedCount + missed,
          bufferData := none,
          bufferScale := -1,
          bufferIntegrCount := 0,
          bufferObservedCount := 0 }, true)
    else
      let b1 := deleteUpTo b b.bufferScale.toNat
      let idx := b1.maxScale - b.bufferScale.toNat
      let arr := b1.blockData.getD idx []
      let marked := arr.map markVoxelObserved
      let missed := markMissedCount arr
      ({ b1 with
          blockData := b1.blockData.set idx marked,
          blockMinData := b1.blockMinData.set idx marked,
          blockMaxData := b1.blockMaxData.set idx marked,
          currentScale := b.bufferScale.toNat,
          minScale := b.bufferScale,
          currData := marked,
          currIntegrCount := b.bufferIntegrCount,
          currObservedCount := b.bufferObservedCount + missed,
          bufferData := none,
          bufferScale := -1,
          bufferIntegrCount := 0,
          bufferObservedCount := 0 }, true)
  else
    (b, false)

/-- C2: `switch_data()` ratifies the buffer and returns `true` exactly when
`buffer_integr_count ≥ 20` and
`buffer_observed_count·(1<<buffer_scale)³ ≥ 0.9·curr_observed_count·(1<<current_scale)³`;
on ratification it makes the (marked) buffer the current pyramid — appended
as a new finest scale when the buffer scale is finer, truncating the
pyramid when it is coarser — marks every buffer voxel with positive weight
and `observed == false` as observed, and switches the current scale, data
and counters to the buffer's; when the condition fails it returns `false`
and leaves the whole block unchanged. -/
theorem switchData_spec (b : SE.OccBlock) :
    ((SE.switchData b).2 = true ↔ (20 ≤ b.bufferIntegrCount ∧ SE.bufferVolumeCond b)) ∧
    (¬(20 ≤ b.bufferIntegrCount ∧ SE.bufferVolumeCond b) → SE.switchData b = (b, false)) ∧
    ((20 ≤ b.bufferIntegrCount ∧ SE.bufferVolumeCond b) →
      (SE.switchData b).1.currentScale = b.bufferScale.toNat ∧
      (SE.switchData b).1.minScale = b.bufferScale ∧
      (SE.switchData b).1.currIntegrCount = b.bufferIntegrCount ∧
      (b.bufferScale < (b.currentScale : ℤ) →
        (SE.switchData b).1.blockData =
          b.blockData ++ [(b.bufferData.getD []).map SE.markVoxelObserved] ∧
        (SE.switchData b).1.currData = (b.bufferData.getD []).map SE.markVoxelObserved ∧
        (SE.switchData b).1.currObservedCount =
          b.bufferObservedCount + SE.markMissedCount (b.bufferData.getD [])) ∧
      (¬b.bufferScale < (b.currentScale : ℤ) →
        (SE.switchData b).1.blockData =
          ((SE.deleteUpTo b b.bufferScale.toNat).blockData).set
            ((SE.deleteUpTo b b.bufferScale.toNat).maxScale - b.bufferScale.toNat)
            (((SE.deleteUpTo b b.bufferScale.toNat).blockData.getD
                ((SE.deleteUpTo b b.bufferScale.toNat).maxScale - b.bufferScale.toNat)
                []).map SE.markVoxelObserved) ∧
        (SE.switchData b).1.currData =
          ((SE.deleteUpTo b b.bufferScale.toNat).blockData.getD
            ((SE.deleteUpTo b b.bufferScale.toNat).maxScale - b.bufferScale.toNat)
            []).map SE.markVoxelObserved ∧
        (SE.switchData b).1.currObservedCount =
          b.bufferObservedCount +
            SE.markMissedCount
              ((SE.deleteUpTo b b.bufferScale.toNat).blockData.getD
                ((SE.deleteUpTo b b.bufferScale.toNat).maxScale - b.bufferScale.toNat) []))) := by
  refine ⟨?_, ?_, ?_⟩
  · unfold SE.switchData
    by_cases h : 20 ≤ b.bufferIntegrCount ∧ SE.bufferVolumeCond b
    · rw [if_pos h]
      by_cases h2 : b.bufferScale < (b.currentScale : ℤ)
      · rw [if_pos h2]; exact iff_of_true rfl h
      · rw [if_neg h2]; exact iff_of_true rfl h
    · rw [if_neg h]
      exact iff_of_false (by simp) h
  · intro h
    unfold SE.switchData
    rw [if_neg h]
  · intro h
    by_cases h2 : b.bufferScale < (b.currentScale : ℤ)
    · unfold SE.switchData
      rw [if_pos h, if_pos h2]
      exact ⟨rfl, rfl, rfl, fun _ => ⟨rfl, rfl, rfl⟩, fun hc => absurd h2 hc⟩
    · unfold SE.switchData
      rw [if_pos h, if_neg h2]
      exact ⟨rfl, rfl, rfl, fun hc => absurd hc h2, fun _ => ⟨rfl, rfl, rfl⟩⟩

/-- A concrete occupancy block whose buffer (at scale 0, finer than the
current scale 1) satisfies the ratification condition. -/
def ratifyBlock : SE.OccBlock :=
  { blockSize := 2
    maxScale := 1
    coord := (0, 0, 0)
    initData := default
    blockData := [[⟨1, 1, true⟩]]
    blockMinData := [[⟨1, 1, true⟩]]
    blockMaxData := [[⟨1, 1, true⟩]]
    bufferData := some (List.replicate 8 ⟨-1, 1, false⟩)
    bufferScale := 0
    currentScale := 1
    minScale := 1
    currIntegrCount := 30
    currObservedCount := 1
    bufferIntegrCount := 20
    bufferObservedCount := 8
    currData := [⟨1, 1, true⟩] }

/-- Witness for C2 at `ratifyBlock`: the condition holds (8 voxels observed
at scale 0 against 1 voxel at scale 1, `8 ≥ 0.9·8`), the switch adopts
scale 0 and the marked buffer. -/
theorem switchData_spec_witness :
    (20 ≤ ratifyBlock.bufferIntegrCount ∧ SE.bufferVolumeCond ratifyBlock) ∧
    (SE.switchData ratifyBlock).1.currentScale = 0 ∧
    (SE.switchData ratifyBlock).1.currData =
      (ratifyBlock.bufferData.getD []).map SE.markVoxelObserved :=
  have h : 20 ≤ ratifyBlock.bufferIntegrCount ∧ SE.bufferVolumeCond ratifyBlock := by
    constructor
    · decide
    · show ((8 * SE.cu (2 ^ (0 : ℤ).toNat) : ℤ) : ℚ) ≥ 9 / 10 * ((1 * SE.cu (2 ^ 1) : ℤ) : ℚ)
      norm_num [SE.cu]
  ⟨h, ((switchData_spec ratifyBlock).2.2 h).1,
    (((switchData_spec ratifyBlock).2.2 h).2.2.2.1 (by decide)).2.1⟩

/-- C10: `incrBufferIntegrCount(do_increment)` increments
`buffer_integr_count` when `do_increment` is true, and also when
`do_increment` is false but the buffer already covers at least 90% of the
currently observed volume; otherwise it leaves the block unchanged. -/
theorem incrBufferIntegrCount_spec (b : SE.OccBlock) (inc : Bool) :
    (inc = true →
      (SE.incrBufferIntegrCount b inc).bufferIntegrCount = b.bufferIntegrCount + 1) ∧
    (inc = false → SE.bufferVolumeCond b →
      (SE.incrBufferIntegrCount b inc).bufferIntegrCount = b.bufferIntegrCount + 1) ∧
    (inc = false → ¬SE.bufferVolumeCond b → SE.incrBufferIntegrCount b inc = b) := by
  refine ⟨?_, ?_, ?_⟩
  · intro h
    unfold SE.incrBufferIntegrCount
    rw [if_pos (Or.inl h)]
  · intro _ h
    unfold SE.incrBufferIntegrCount
    rw [if_pos (Or.inr h)]
  · intro h1 h2
    unfold SE.incrBufferIntegrCount
    rw [if_neg ?_]
    rintro (hc | hc)
    · rw [h1] at hc; cases hc
    · exact h2 hc

/-- Witness for C10: a block with an empty current observation count
satisfies the volume condition trivially, so the buffer integration count
grows even with `do_increment = false`. -/
theorem incrBufferIntegrCount_spec_witness :
    ((false = false) ∧ SE.bufferVolumeCond ratifyBlock) ∧
    (SE.incrBufferIntegrCount ratifyBlock false).bufferIntegrCount =
      ratifyBlock.bufferIntegrCount + 1 :=
  have h : SE.bufferVolumeCond ratifyBlock := by
    show ((8 * SE.cu (2 ^ (0 : ℤ).toNat) : ℤ) : ℚ) ≥ 9 / 10 * ((1 * SE.cu (2 ^ 1) : ℤ) : ℚ)
    norm_num [SE.cu]
  ⟨⟨rfl, h⟩, (incrBufferIntegrCount_spec ratifyBlock false).2.1 rfl h⟩

/-! ## The multi-resolution TSDF block (`BlockMultiRes<TSDF>`) -/

instance : Inhabited TsdfData := ⟨⟨0, 0⟩⟩

structure TsdfBlock where
  /-- The `BlockSize` template parameter. -/
  blockSize : ℕ
  /-- `max_scale = log2 BlockSize`. -/
  maxScale : ℕ
  /-- The block's voxel coordinates. -/
  coord : ℤ × ℤ × ℤ
  /-- `block_data_`: one flat array holding the concatenated scale arrays. -/
  blockData : List TsdfData
  /-- `size_at_scales_`: the per-scale side length table of the block. -/
  sizeAtScales : List ℕ
  /-- `scale_offsets_`: the per-scale offset table into `block_data_`. -/
  scaleOffsets : List ℕ
  /-- `current_scale`. -/
  currentScale : ℕ
deriving DecidableEq, Repr

/-- `BlockMultiRes<TSDF>::getVoxelIdx(voxel_coord, scale)`:
`scale_offsets_[scale] + linearised((voxel_coord - coord) / (1 << scale))`
with side `size_at_scales_[scale]`. -/
def tsdfGetVoxelIdx (b : TsdfBlock) (voxel : ℤ × ℤ × ℤ) (scale : ℕ) : ℤ :=
  let ox := (voxel.1 - b.coord.1).tdiv (2 ^ scale)
  let oy := (voxel.2.1 - b.coord.2.1).tdiv (2 ^ scale)
  let oz := (voxel.2.2 - b.coord.2.2).tdiv (2 ^ scale)
  let size_at_scale : ℤ := b.sizeAtScales.getD scale 0
  (b.scaleOffsets.getD scale 0 : ℤ) + ox + oy * size_at_scale + oz * size_at_scale ^ 2

/-- `BlockMultiRes<TSDF>::data(voxel_idx)`: flat array read. -/
def tsdfDataFlat (b : TsdfBlock) (idx : ℤ) : TsdfData :=
  b.blockData.getD idx.toNat default

/-- `BlockMultiRes<TSDF>::data(voxel_coord, scale)`: read at the requested
scale. -/
def tsdfDataAtScale (b : TsdfBlock) (voxel : ℤ × ℤ × ℤ) (scale : ℕ) : TsdfData :=
  tsdfDataFlat b (tsdfGetVoxelIdx b voxel scale)

/-- `BlockMultiRes<TSDF>::data(voxel_coord, scale_desired, scale_returned)`:
clamp the desired scale to the current scale, report it, and read there. -/
def tsdfDataAtCurrentOrCoarser (b : TsdfBlock) (voxel : ℤ × ℤ × ℤ) (scale_desired : ℕ) :
    TsdfData × ℕ :=
  let scale_returned := max scale_desired b.currentScale
  (tsdfDataFlat b (tsdfGetVoxelIdx b voxel scale_returned), scale_returned)

/-- C7: for both block flavours, the desired-scale accessor returns the
data stored at the actual scale `max(desired_scale, current_scale)` and
reports that scale to the caller. -/
theorem data_desired_scale_spec (tb : TsdfBlock) (ob : OccBlock) (v w : ℤ × ℤ × ℤ)
    (sd sd' : ℕ) :
    tsdfDataAtCurrentOrCoarser tb v sd =
      (tsdfDataAtScale tb v (max sd tb.currentScale), max sd tb.currentScale) ∧
    occDataAtCurrentOrCoarser ob w sd' =
      (occStoredAt ob (max sd' ob.currentScale) (occGetVoxelIdx ob w (max sd' ob.currentScale)),
        max sd' ob.currentScale) :=
  ⟨rfl, rfl⟩

/-! ## Unallocated queries (`maxData` at a finer scale, `visitor::getData`) -/

/-- Modelled from the spec: `se::visitor::getData(octree, voxel_coord)`
(its implementation file `visitor_impl.hpp` is not among the provided
sources; per its in-source documentation and §7 of the spec, the visitor
"returns init data if the block is not allocated", otherwise the data held
by the containing block).  The fetched block is passed as an `Option`. -/
def visitorGetData (blockAt : Option OccBlock) (init_data : OccData) (voxel : ℤ × ℤ × ℤ) :
    OccData :=
  match blockAt with
  | none => init_data
  | some blk => occDataAtCurrent blk voxel

/-- C9: unallocated queries fall back to the initial data: `maxData` at a
scale finer than the finest allocated scale returns the block's
`init_data_`, and the visitor `getData` returns the octree's init data when
the containing block is not allocated. -/
theorem unallocated_query_init_data (b : OccBlock) (v w : ℤ × ℤ × ℤ) (scale : ℕ)
    (hfine : scale < b.maxScale - (b.blockData.length - 1))
    (blockAt : Option OccBlock) (hnone : blockAt = none) (init_data : OccData) :
    occMaxDataAtScale b v scale = b.initData ∧
    visitorGetData blockAt init_data w = init_data := by
  constructor
  · unfold occMaxDataAtScale
    rw [if_pos hfine]
  · rw [hnone]
    rfl

/-- A concrete occupancy block allocated only at its coarsest scale 1. -/
def coarseBlock : OccBlock :=
  { blockSize := 2
    maxScale := 1
    coord := (0, 0, 0)
    initData := ⟨-5, 0, false⟩
    blockData := [[⟨2, 3, true⟩]]
    blockMinData := [[⟨2, 3, true⟩]]
    blockMaxData := [[⟨2, 3, true⟩]]
    bufferData := none
    bufferScale := -1
    currentScale := 1
    minScale := 1
    currIntegrCount := 1
    currObservedCount := 1
    bufferIntegrCount := 0
    bufferObservedCount := 0
    currData := [⟨2, 3, true⟩] }

/-- Witness for C9: scale 0 is finer than `coarseBlock`'s finest allocated
scale 1, so `maxData` yields the init data; `getData` on a missing block
yields the init data. -/
theorem unallocated_query_init_data_witness :
    ((0 : ℕ) < coarseBlock.maxScale - (coarseBlock.blockData.length - 1) ∧
      (none : Option OccBlock) = none) ∧
    (occMaxDataAtScale coarseBlock (0, 0, 0) 0 = coarseBlock.initData ∧
      visitorGetData none ⟨-5, 0, false⟩ (0, 0, 0) = ⟨-5, 0, false⟩) :=
  ⟨⟨by decide, rfl⟩,
    unallocated_query_init_data coarseBlock (0, 0, 0) (0, 0, 0) 0 (by decide) none rfl
      ⟨-5, 0, false⟩⟩

/-! ## The octree store: child allocation and construction
(`se_map/include/se/octree/impl/octree_impl.hpp`) -/

/-- The child-pointer table of a non-block parent node; pointers are
modelled as pool identifiers (`ℕ`). -/
structure NodeChildren where
  children : Fin 8 → Option ℕ

/-- The outcome of `Octree::allocate(parent, child_idx)`: the returned
child pointer, the parent's updated child table, and the memory pool
(modelled as the next fresh identifier). -/
structure AllocResult where
  ptr : ℕ
  parent : NodeChildren
  pool : ℕ

/-- `Octree::allocate(parent_ptr, child_idx)` (pointer-returning overload):
return the existing child if there is one, otherwise obtain a fresh octant
from the memory pool and write it back into the parent. -/
def octreeAllocate (parent : NodeChildren) (pool : ℕ) (child_idx : Fin 8) : AllocResult :=
  match parent.children child_idx with
  | some c => ⟨c, parent, pool⟩
  | none => ⟨pool, ⟨Function.update parent.children child_idx (some pool)⟩, pool + 1⟩

/-- `Octree::allocate(parent_ptr, child_idx, child_ptr)` (bool overload):
additionally reports whether a new octant was allocated. -/
def octreeAllocateBool (parent : NodeChildren) (pool : ℕ) (child_idx : Fin 8) :
    Bool × AllocResult :=
  match parent.children child_idx with
  | some c => (false, ⟨c, parent, pool⟩)
  | none => (true, ⟨pool, ⟨Function.update parent.children child_idx (some pool)⟩, pool + 1⟩)

/-- C6: child allocation is idempotent.  If the child octant already
exists, both allocate overloads return the existing pointer without
touching the parent or the pool (the bool overload reporting `false`), and
consequently after any first call every further call for the same
`(parent, child_idx)` yields the same single octant and changes nothing. -/
theorem octree_allocate_idempotent (parent : NodeChildren) (pool : ℕ) (child_idx : Fin 8)
    (c : ℕ) (halloc : parent.children child_idx = some c) :
    octreeAllocate parent pool child_idx = ⟨c, parent, pool⟩ ∧
    octreeAllocateBool parent pool child_idx = (false, ⟨c, parent, pool⟩) ∧
    (∀ (p : NodeChildren) (q : ℕ),
      octreeAllocate (octreeAllocate p q child_idx).parent (octreeAllocate p q child_idx).pool
          child_idx =
        ⟨(octreeAllocate p q child_idx).ptr, (octreeAllocate p q child_idx).parent,
          (octreeAllocate p q child_idx).pool⟩) := by
  refine ⟨?_, ?_, ?_⟩
  · unfold octreeAllocate
    rw [halloc]
  · unfold octreeAllocateBool
    rw [halloc]
  · intro p q
    rcases hch : p.children child_idx with _ | c'
    · have h1 : octreeAllocate p q child_idx =
          ⟨q, ⟨Function.update p.children child_idx (some q)⟩, q + 1⟩ := by
        unfold octreeAllocate
        rw [hch]
      rw [h1]
      unfold octreeAllocate
      simp [Function.update_same]
    · have h1 : octreeAllocate p q child_idx = ⟨c', p, q⟩ := by
        unfold octreeAllocate
        rw [hch]
      rw [h1]
      unfold octreeAllocate
      rw [hch]

/-- Witness for C6: a parent whose child 3 is already octant 5. -/
theorem octree_allocate_idempotent_witness :
    ((fun _ : Fin 8 => some 5) (3 : Fin 8) = some 5) ∧
    octreeAllocate ⟨fun _ => some 5⟩ 17 3 = ⟨5, ⟨fun _ => some 5⟩, 17⟩ :=
  ⟨rfl, (octree_allocate_idempotent ⟨fun _ => some 5⟩ 17 3 5 rfl).1⟩

/-- The cited `Octree::Octree(size)` constructor
(`se_map/include/se/octree/impl/octree_impl.hpp` lines 10–16): the stored
size is the requested size, unchanged; the constructor merely asserts
(debug builds only) that the size is a power of two and that
`BlockSize < size`. -/
def octreeCtorSize (size : ℤ) : ℤ := size

/-- `se::math::is_power_of_two` (its definition is not under the provided
sources; mathematically, a positive integral power of two). -/
def isPowerOfTwo (n : ℤ) : Prop := ∃ k : ℕ, n = 2 ^ k

/-- The two assertions of the cited constructor. -/
def octreeCtorAssertOk (blockSize size : ℤ) : Prop :=
  isPowerOfTwo size ∧ blockSize < size

/-- Doubling loop computing the least power of two that is `≥ target`
(the fuel argument only bounds the iteration count). -/
def pow2UpAux (target : ℕ) : ℕ → ℕ → ℕ
  | 0, acc => acc
  | fuel + 1, acc => if target ≤ acc then acc else pow2UpAux target fuel (2 * acc)

/-- The size the claim predicts (from the spec's words, for comparison with
the source): the requested size rounded up to the next power of two that is
at least `2·B`. -/
def claimedOctreeSize (size b : ℕ) : ℕ :=
  pow2UpAux (max size (2 * b)) (max size (2 * b)) 1

/-- Counterexample to C8: for requested size 48 and block size 8 the cited
constructor stores 48, while the claim predicts the rounded-up 64. -/
theorem octree_ctor_no_rounding :
    octreeCtorSize 48 = 48 ∧ claimedOctreeSize 48 8 = 64 ∧ (48 : ℤ) ≠ 64 :=
  ⟨rfl, by decide, by decide⟩

/-- C8 (amended): the cited constructor stores the requested size
unchanged; its debug assertions accept exactly the sizes that are powers of
two greater than the block size, and for a power-of-two block size any
accepted size is at least `2·B` — no rounding is performed.  (The
repository's second, newer octree constructor computes
`power_two_up(max(size, 2·BlockSize))`, which is the behaviour the claim
describes.) -/
theorem octree_ctor_size_unchanged (size blockSize : ℤ)
    (hpow : isPowerOfTwo blockSize) :
    octreeCtorSize size = size ∧
    (octreeCtorAssertOk blockSize size → isPowerOfTwo size ∧ 2 * blockSize ≤ size) := by
  refine ⟨rfl, ?_⟩
  rintro ⟨⟨k, hk⟩, hlt⟩
  refine ⟨⟨k, hk⟩, ?_⟩
  obtain ⟨j, hj⟩ := hpow
  subst hk hj
  have hjk : j < k := by
    have := hlt
    exact_mod_cast (pow_lt_pow_iff_right₀ (by norm_num : (1 : ℤ) < 2)).mp this
  calc (2 : ℤ) * 2 ^ j = 2 ^ (j + 1) := by ring
    _ ≤ 2 ^ k := pow_le_pow_right₀ (by norm_num) hjk

/-- Witness for C8's amended statement at size 32, block size 8. -/
theorem octree_ctor_size_unchanged_witness :
    (isPowerOfTwo 8 ∧ octreeCtorAssertOk 8 32) ∧
    (octreeCtorSize 32 = 32 ∧ isPowerOfTwo 32 ∧ (2 : ℤ) * 8 ≤ 32) :=
  have h8 : isPowerOfTwo 8 := ⟨3, by norm_num⟩
  have h32 : octreeCtorAssertOk 8 32 := ⟨⟨5, by norm_num⟩, by norm_num⟩
  have hmain := octree_ctor_size_unchanged 32 8 h8
  ⟨⟨h8, h32⟩, hmain.1, (hmain.2 h32).1, (hmain.2 h32).2⟩

/-! ## Interior-node up-propagation
(`ray_integrator::propagate_to_parent_node`, `ray_integrator_core_impl.hpp`)

A child contributes its min- and max-data pair (taken from `minData()` /
`maxData()` of a block or from `min_data` / `max_data` of a node).  The C++
running extrema start from the `float` sentinels `lowest()` / `max()`;
they are modelled by `Option ℚ` with `none` as the sentinel, so the first
weighted child always wins the comparison exactly as every non-sentinel
float value beats the sentinel. -/

/-- An interior occupancy node: mean, min and max aggregate data plus the
frame timestamp. -/
structure NodeOccData where
  data : OccData
  min_data : OccData
  max_data : OccData
  timestamp : ℤ
deriving DecidableEq, Repr

/-- The loop state of `propagate_to_parent_node` over the 8 children. -/
structure PropAcc where
  minMean : ℚ
  minWeight : ℚ
  minOcc : Option ℚ
  minCount : ℕ
  maxMean : ℚ
  maxWeight : ℚ
  maxOcc : Option ℚ
  maxCount : ℕ
  obsCount : ℕ
deriving DecidableEq, Repr

/-- `min_occupancy / max_occupancy` initialised to the float sentinels. -/
def propAccInit : PropAcc := ⟨0, 0, none, 0, 0, 0, none, 0, 0⟩

/-- `occupancy < min_occupancy` with `min_occupancy` possibly the sentinel. -/
def ltSentinel (x : ℚ) : Option ℚ → Bool
  | none => true
  | some m => decide (x < m)

/-- `occupancy > max_occupancy` with `max_occupancy` possibly the sentinel. -/
def gtSentinel (x : ℚ) : Option ℚ → Bool
  | none => true
  | some m => decide (m < x)

/-- One iteration of the child loop of `propagate_to_parent_node`: a null
child is skipped; a weighted min-datum that beats the running minimum and a
weighted max-datum that beats the running maximum are recorded, and a child
whose max-datum is observed is counted. -/
def propStep (acc : PropAcc) (child : Option (OccData × OccData)) : PropAcc :=
  match child with
  | none => acc
  | some (mn, mx) =>
    let acc1 :=
      if 0 < mn.weight ∧ ltSentinel (getField mn) acc.minOcc then
        { acc with
            minMean := mn.occupancy
            minWeight := mn.weight
            minOcc := some (getField mn)
            minCount := acc.minCount + 1 }
      else acc
    let acc2 :=
      if 0 < mx.weight ∧ gtSentinel (getField mx) acc1.maxOcc then
        { acc1 with
            maxMean := mx.occupancy
            maxWeight := mx.weight
            maxOcc := some (getField mx)
            maxCount := acc1.maxCount + 1 }
      else acc1
    if mx.observed then { acc2 with obsCount := acc2.obsCount + 1 } else acc2

/-- `ray_integrator::propagate_to_parent_node`: stamp the node, fold over
the children, then write back the min/max aggregates — each observed flag
being set to `true` only when all 8 children were observed, and otherwise
left at its previous value.  Returns the node's (new) max data. -/
def propagateToParentNode (nd : NodeOccData) (children : List (Option (OccData × OccData)))
    (timestamp : ℤ) : NodeOccData × OccData :=
  let nd0 := { nd with timestamp := timestamp }
  let acc := children.foldl propStep propAccInit
  let nd1 :=
    if 0 < acc.minCount then
      { nd0 with
          min_data := { occupancy := acc.minMean, weight := acc.minWeight,
                        observed := if acc.obsCount = 8 then true else nd0.min_data.observed } }
    else nd0
  let nd2 :=
    if 0 < acc.maxCount then
      { nd1 with
          max_data := { occupancy := acc.maxMean, weight := acc.maxWeight,
                        observed := if acc.obsCount = 8 then true else nd1.max_data.observed } }
    else nd1
  (nd2, nd2.max_data)

/-- Whether a child is non-null and carries an observed max-datum. -/
def childObserved (child : Option (OccData × OccData)) : Bool :=
  match child with
  | none => false
  | some (_, mx) => mx.observed

/-- Whether a child is non-null and its max-datum has positive weight. -/
def childMaxWeighted (child : Option (OccData × OccData)) : Bool :=
  match child with
  | none => false
  | some (_, mx) => decide (0 < mx.weight)

/-- Whether a child is non-null and its min-datum has positive weight. -/
def childMinWeighted (child : Option (OccData × OccData)) : Bool :=
  match child with
  | none => false
  | some (mn, _) => decide (0 < mn.weight)

lemma propStep_obsCount (acc : PropAcc) (c : Option (OccData × OccData)) :
    (propStep acc c).obsCount = acc.obsCount + (if childObserved c = true then 1 else 0) := by
  cases c with
  | none => simp [propStep, childObserved]
  | some p =>
    obtain ⟨mn, mx⟩ := p
    simp only [propStep, childObserved]
    split_ifs <;> simp_all

lemma propStep_max_inv (acc : PropAcc) (c : Option (OccData × OccData))
    (h : acc.maxOcc = none ↔ acc.maxCount = 0) :
    ((propStep acc c).maxOcc = none ↔ (propStep acc c).maxCount = 0) := by
  cases c with
  | none => simpa [propStep]
  | some p =>
    obtain ⟨mn, mx⟩ := p
    simp only [propStep]
    split_ifs <;> simp_all

lemma propStep_min_inv (acc : PropAcc) (c : Option (OccData × OccData))
    (h : acc.minOcc = none ↔ acc.minCount = 0) :
    ((propStep acc c).minOcc = none ↔ (propStep acc c).minCount = 0) := by
  cases c with
  | none => simpa [propStep]
  | some p =>
    obtain ⟨mn, mx⟩ := p
    simp only [propStep]
    split_ifs <;> simp_all

lemma propStep_maxCount_pos (acc : PropAcc) (c : Option (OccData × OccData))
    (h : acc.maxOcc = none ↔ acc.maxCount = 0) :
    (0 < (propStep acc c).maxCount ↔ (0 < acc.maxCount ∨ childMaxWeighted c = true)) := by
  cases c with
  | none => simp [propStep, childMaxWeighted]
  | some p =>
    obtain ⟨mn, mx⟩ := p
    simp only [propStep, childMaxWeighted]
    rcases hm : acc.maxOcc with _ | m
    · have hc : acc.maxCount = 0 := h.mp hm
      split_ifs with h1 h2 h3 h2 h3 <;> simp_all [gtSentinel]
    · have hc : ¬acc.maxCount = 0 := fun hz => by simp [h.mpr hz] at hm
      split_ifs <;> simp_all <;> omega

lemma propStep_minCount_pos (acc : PropAcc) (c : Option (OccData × OccData))
    (h : acc.minOcc = none ↔ acc.minCount = 0) :
    (0 < (propStep acc c).minCount ↔ (0 < acc.minCount ∨ childMinWeighted c = true)) := by
  cases c with
  | none => simp [propStep, childMinWeighted]
  | some p =>
    obtain ⟨mn, mx⟩ := p
    simp only [propStep, childMinWeighted]
    rcases hm : acc.minOcc with _ | m
    · have hc : acc.minCount = 0 := h.mp hm
      split_ifs with h1 h2 h3 h2 h3 <;> simp_all [ltSentinel]
    · have hc : ¬acc.minCount = 0 := fun hz => by simp [h.mpr hz] at hm
      split_ifs <;> simp_all <;> omega

lemma foldl_propStep_obsCount (l : List (Option (OccData × OccData))) :
    ∀ acc : PropAcc, (l.foldl propStep acc).obsCount = acc.obsCount + l.countP childObserved := by
  induction l with
  | nil => intro acc; simp
  | cons c t ih =>
    intro acc
    rw [List.foldl_cons, ih, List.countP_cons, propStep_obsCount]
    rcases hobs : childObserved c <;> simp [hobs]
    omega

lemma foldl_propStep_maxCount (l : List (Option (OccData × OccData))) :
    ∀ acc : PropAcc, (acc.maxOcc = none ↔ acc.maxCount = 0) →
      (0 < (l.foldl propStep acc).maxCount ↔
        (0 < acc.maxCount ∨ l.any childMaxWeighted = true)) := by
  induction l with
  | nil => intro acc _; simp
  | cons c t ih =>
    intro acc h
    rw [List.foldl_cons, ih (propStep acc c) (propStep_max_inv acc c h), List.any_cons,
      propStep_maxCount_pos acc c h]
    rcases hw : childMaxWeighted c <;> simp [hw]

lemma foldl_propStep_minCount (l : List (Option (OccData × OccData))) :
    ∀ acc : PropAcc, (acc.minOcc = none ↔ acc.minCount = 0) →
      (0 < (l.foldl propStep acc).minCount ↔
        (0 < acc.minCount ∨ l.any childMinWeighted = true)) := by
  induction l with
  | nil => intro acc _; simp
  | cons c t ih =>
    intro acc h
    rw [List.foldl_cons, ih (propStep acc c) (propStep_min_inv acc c h), List.any_cons,
      propStep_minCount_pos acc c h]
    rcases hw : childMinWeighted c <;> simp [hw]

/-- C5 (amended): after `propagate_to_parent_node` the node's max-data
observed flag is true iff it was already true or all 8 children are
non-null and observed and at least one child carries a weighted max-datum;
likewise for the min-data flag with a weighted min-datum.  (The claim's
"every non-null child observed" is not sufficient: the flag is only set
when the observed count reaches 8, and it is never cleared.) -/
theorem propagateToParentNode_observed_spec (nd : NodeOccData)
    (children : List (Option (OccData × OccData))) (ts : ℤ)
    (hlen : children.length = 8) :
    (propagateToParentNode nd children ts).1.max_data.observed =
      (nd.max_data.observed ||
        (decide (children.countP childObserved = 8) && children.any childMaxWeighted)) ∧
    (propagateToParentNode nd children ts).1.min_data.observed =
      (nd.min_data.observed ||
        (decide (children.countP childObserved = 8) && children.any childMinWeighted)) := by
  have hobs : (children.foldl propStep propAccInit).obsCount = children.countP childObserved := by
    rw [foldl_propStep_obsCount]
    simp [propAccInit]
  have hmax : (0 < (children.foldl propStep propAccInit).maxCount ↔
      children.any childMaxWeighted = true) := by
    rw [foldl_propStep_maxCount children propAccInit (by simp [propAccInit])]
    simp [propAccInit]
  have hmin : (0 < (children.foldl propStep propAccInit).minCount ↔
      children.any childMinWeighted = true) := by
    rw [foldl_propStep_minCount children propAccInit (by simp [propAccInit])]
    simp [propAccInit]
  constructor
  · simp only [propagateToParentNode]
    by_cases hM : 0 < (children.foldl propStep propAccInit).maxCount
    · rw [if_pos hM]
      have hany : children.any childMaxWeighted = true := hmax.mp hM
      by_cases h8 : (children.foldl propStep propAccInit).obsCount = 8
      · have : children.countP childObserved = 8 := by rw [← hobs]; exact h8
        split_ifs <;> simp_all
      · have : ¬children.countP childObserved = 8 := by rw [← hobs]; exact h8
        split_ifs <;> simp_all
    · rw [if_neg hM]
      have hany : ¬children.any childMaxWeighted = true := fun h => hM (hmax.mpr h)
      split_ifs <;> simp_all
  · simp only [propagateToParentNode]
    by_cases hm : 0 < (children.foldl propStep propAccInit).minCount
    · have hany : children.any childMinWeighted = true := hmin.mp hm
      by_cases h8 : (children.foldl propStep propAccInit).obsCount = 8
      · have : children.countP childObserved = 8 := by rw [← hobs]; exact h8
        split_ifs <;> simp_all
      · have : ¬children.countP childObserved = 8 := by rw [← hobs]; exact h8
        split_ifs <;> simp_all
    · have hany : ¬children.any childMinWeighted = true := fun h => hm (hmin.mpr h)
      split_ifs <;> simp_all

/-- The single-child configuration refuting C5 as stated. -/
def singleObservedChild : List (Option (OccData × OccData)) :=
  [some (⟨-1, 1, true⟩, ⟨-1, 1, true⟩), none, none, none, none, none, none, none]

/-- Counterexample to C5 as stated: one allocated child, observed and
weighted — so every non-null child is observed — yet after
`propagate_to_parent_node` the node's observed flags are still false. -/
theorem propagateToParentNode_observed_cex :
    singleObservedChild.all (fun c => c.isNone || childObserved c) = true ∧
    (propagateToParentNode ⟨⟨0, 0, false⟩, ⟨0, 0, false⟩, ⟨0, 0, false⟩, 0⟩
        singleObservedChild 1).1.max_data.observed = false ∧
    (propagateToParentNode ⟨⟨0, 0, false⟩, ⟨0, 0, false⟩, ⟨0, 0, false⟩, 0⟩
        singleObservedChild 1).1.min_data.observed = false := by
  refine ⟨by decide, ?_, ?_⟩ <;> decide

/-- Witness for C5's amended statement: with all 8 children observed and
weighted the flags do switch to true. -/
theorem propagateToParentNode_observed_witness :
    (List.replicate 8 (some (⟨-1, 1, true⟩, ⟨-1, 1, true⟩)) :
        List (Option (OccData × OccData))).length = 8 ∧
    (propagateToParentNode ⟨⟨0, 0, false⟩, ⟨0, 0, false⟩, ⟨0, 0, false⟩, 0⟩
        (List.replicate 8 (some (⟨-1, 1, true⟩, ⟨-1, 1, true⟩))) 1).1.max_data.observed =
      (false ||
        (decide ((List.replicate 8 (some ((⟨-1, 1, true⟩ : OccData), (⟨-1, 1, true⟩ : OccData)))).countP
            childObserved = 8) &&
          (List.replicate 8 (some ((⟨-1, 1, true⟩ : OccData), (⟨-1, 1, true⟩ : OccData)))).any
            childMaxWeighted)) :=
  ⟨by decide,
    (propagateToParentNode_observed_spec ⟨⟨0, 0, false⟩, ⟨0, 0, false⟩, ⟨0, 0, false⟩, 0⟩
      (List.replicate 8 (some (⟨-1, 1, true⟩, ⟨-1, 1, true⟩))) 1 (by decide)).1⟩

/-! ## Occupancy propagation to the root and subtree pruning
(`Updater<Occupancy>::propagateToRoot` and `freeNodeRecurse`,
`multires_ofusion_updater_impl.hpp`) -/

/-- The block payload relevant to the structural phases. -/
structure BlockLite where
  minD : OccData
  maxD : OccData
  ts : ℤ

/-- An octree octant: a leaf block, or an interior node with its aggregate
data and 8 optional children. -/
inductive OTree : Type where
  | block (b : BlockLite) : OTree
  | node (nd : NodeOccData) (children : Fin 8 → Option OTree) : OTree

/-- An octant is present at the path `p` of child indices. -/
def present : List (Fin 8) → OTree → Prop
  | [], _ => True
  | i :: p, t =>
    match t with
    | .block _ => False
    | .node _ ch =>
      match ch i with
      | none => False
      | some c => present p c

/-- The body of the `propagateToRoot` loop for one octant of the level set
(`multires_ofusion_updater_impl.hpp` lines 104–121): an octant whose
timestamp already equals the current frame is skipped; otherwise, if it has
a parent, the aggregation `agg` (modelling
`updater::propagateToNoteAtCoarserScale`, whose definition is not among the
provided sources) updates the node and returns the propagated data
`node_data`, and the children are deleted — the only structural change —
exactly when `node_data.observed && node_data.occupancy * node_data.weight
<= 0.95 * min_occupancy`.  Returns the updated node, its children and
whether the subtree was pruned. -/
def visitNode (frame : ℤ) (min_occupancy : ℚ)
    (agg : NodeOccData → (Fin 8 → Option OTree) → NodeOccData × OccData)
    (hasParent : Bool) (nd : NodeOccData) (ch : Fin 8 → Option OTree) :
    (NodeOccData × (Fin 8 → Option OTree)) × Bool :=
  if nd.timestamp = frame then ((nd, ch), false)
  else if hasParent then
    let r := agg nd ch
    if r.2.observed = true ∧ r.2.occupancy * r.2.weight ≤ 95 / 100 * min_occupancy then
      ((r.1, fun _ => none), true)
    else
      ((r.1, ch), false)
  else
    ((nd, ch), false)

/-- `Updater<Occupancy>::freeNodeRecurse(octant, depth)`: a childless node
only has its data freed (`fnode`, modelling `updater::freeNode`, data-only);
otherwise each child is allocated if missing (`fresh` models the octant
returned by `allocateAll` for a missing child), block children have their
data freed (`fblock`, modelling `freeBlock`, data-only) and node children
are recursed into.  The fuel argument bounds the recursion depth; no
branch ever removes an octant. -/
def freeNodeRecurse (fnode : NodeOccData → NodeOccData) (fblock : BlockLite → BlockLite)
    (fresh : Fin 8 → OTree) : ℕ → OTree → OTree
  | _, .block b => .block b
  | 0, t => t
  | fuel + 1, .node nd ch =>
    if (List.finRange 8).all fun i => (ch i).isNone then
      .node (fnode nd) ch
    else
      .node nd fun i =>
        match (ch i).getD (fresh i) with
        | .block b => some (.block (fblock b))
        | .node nd' ch' => some (freeNodeRecurse fnode fblock fresh fuel (.node nd' ch'))

/-- The final statement of `propagateToRoot`
(`multires_ofusion_updater_impl.hpp` lines 124–125): after the depth loop,
the aggregation is run once on the root octant with its result discarded —
there is no prune test and the root's children are always kept. -/
def visitRoot (agg : NodeOccData → (Fin 8 → Option OTree) → NodeOccData × OccData)
    (nd : NodeOccData) (ch : Fin 8 → Option OTree) :
    NodeOccData × (Fin 8 → Option OTree) :=
  ((agg nd ch).1, ch)

/-- A concrete aggregation whose propagated data is fully-observed free
space (`occupancy·weight = -10`). -/
def rootCexAgg : NodeOccData → (Fin 8 → Option OTree) → NodeOccData × OccData :=
  fun nd _ => (nd, ⟨-10, 1, true⟩)

/-- A root node state for the counterexample. -/
def rootCexNode : NodeOccData := ⟨⟨0, 0, false⟩, ⟨0, 0, false⟩, ⟨0, 0, false⟩, 0⟩

/-- The root's children for the counterexample: all eight allocated. -/
def rootCexChildren : Fin 8 → Option OTree :=
  fun _ => some (.block ⟨⟨0, 0, false⟩, ⟨0, 0, false⟩, 0⟩)

/-- Counterexample to C4 as stated: at the root the data propagated by the
final `propagateToRoot` statement is observed and satisfies
`occupancy·weight ≤ 0.95·min_occupancy` (with `min_occupancy = -10`,
`-10 ≤ -9.5`), yet the root's subtree is not pruned — its children are all
still allocated — because the root call performs no prune test. -/
theorem occupancy_prune_root_cex :
    ((rootCexAgg rootCexNode rootCexChildren).2.observed = true ∧
      (rootCexAgg rootCexNode rootCexChildren).2.occupancy *
          (rootCexAgg rootCexNode rootCexChildren).2.weight ≤ 95 / 100 * (-10)) ∧
    ((visitRoot rootCexAgg rootCexNode rootCexChildren).2 0).isSome = true :=
  ⟨⟨rfl, by norm_num [rootCexAgg]⟩, rfl⟩

/-- C4 (amended): during occupancy propagation to the root, a processed
non-root node's subtree is pruned iff the data propagated to it is observed
and its occupancy·weight is at most `0.95·min_occupancy` (children are
cleared exactly on pruning); the final propagation into the root performs
no prune test and never deletes the root's children; and the free phase of
the same integration step never removes an octant — any octant present
before `freeNodeRecurse` is still present after it, whatever the data
updates do. -/
theorem occupancy_prune_spec :
    (∀ (frame : ℤ) (min_occupancy : ℚ)
      (agg : NodeOccData → (Fin 8 → Option OTree) → NodeOccData × OccData)
      (nd : NodeOccData) (ch : Fin 8 → Option OTree),
      nd.timestamp ≠ frame →
        ((visitNode frame min_occupancy agg true nd ch).2 = true ↔
          ((agg nd ch).2.observed = true ∧
            (agg nd ch).2.occupancy * (agg nd ch).2.weight ≤ 95 / 100 * min_occupancy)) ∧
        ((visitNode frame min_occupancy agg true nd ch).2 = true →
          (visitNode frame min_occupancy agg true nd ch).1.2 = fun _ => none) ∧
        ((visitNode frame min_occupancy agg true nd ch).2 = false →
          (visitNode frame min_occupancy agg true nd ch).1.2 = ch)) ∧
    (∀ (agg : NodeOccData → (Fin 8 → Option OTree) → NodeOccData × OccData)
      (nd : NodeOccData) (ch : Fin 8 → Option OTree),
      (visitRoot agg nd ch).2 = ch) ∧
    (∀ (fnode : NodeOccData → NodeOccData) (fblock : BlockLite → BlockLite)
      (fresh : Fin 8 → OTree) (fuel : ℕ) (p : List (Fin 8)) (t : OTree),
      present p t → present p (freeNodeRecurse fnode fblock fresh fuel t)) := by
  refine ⟨?_, fun _ _ _ => rfl, ?_⟩
  · intro frame min_occupancy agg nd ch hts
    by_cases hc : (agg nd ch).2.observed = true ∧
        (agg nd ch).2.occupancy * (agg nd ch).2.weight ≤ 95 / 100 * min_occupancy
    · refine ⟨?_, ?_, ?_⟩ <;>
        simp only [visitNode, if_neg hts, if_pos rfl, if_pos hc] <;> simp [hc]
    · refine ⟨?_, ?_, ?_⟩ <;>
        simp only [visitNode, if_neg hts, if_pos rfl, if_neg hc] <;> simp [hc]
  · intro fnode fblock fresh fuel
    induction fuel with
    | zero =>
      intro p t hp
      cases t <;> simpa [freeNodeRecurse] using hp
    | succ n ih =>
      intro p t hp
      cases t with
      | block b =>
        simpa [freeNodeRecurse] using hp
      | node nd ch =>
        cases p with
        | nil => trivial
        | cons i rest =>
          rcases hchi : ch i with _ | c
          · exact absurd hp (by simp [present, hchi])
          · have hrest : present rest c := by simpa [present, hchi] using hp
            have hne : ¬((List.finRange 8).all fun j => (ch j).isNone) := by
              simp only [List.all_eq_true]
              intro hall
              have := hall i (List.mem_finRange i)
              rw [hchi] at this
              exact absurd this (by simp)
            simp only [freeNodeRecurse, if_neg hne, present, hchi, Option.getD_some]
            cases c with
            | block b' =>
              cases rest with
              | nil => trivial
              | cons j q => exact absurd hrest (by simp [present])
            | node nd' ch' => exact ih rest (.node nd' ch') hrest

/-- Witness for C4: a node with an old timestamp whose propagated data is
fully-observed free space (`occupancy·weight = -10 ≤ 0.95·(-10)`) is
pruned, and a fresh single-node tree keeps its (empty) path presence
through the free phase. -/
theorem occupancy_prune_spec_witness :
    ((⟨⟨0, 0, false⟩, ⟨0, 0, false⟩, ⟨0, 0, false⟩, 0⟩ : NodeOccData).timestamp ≠ (1 : ℤ)) ∧
    (visitNode 1 (-10)
        (fun nd _ => (nd, ⟨-10, 1, true⟩)) true
        ⟨⟨0, 0, false⟩, ⟨0, 0, false⟩, ⟨0, 0, false⟩, 0⟩ (fun _ => none)).2 = true :=
  have hts : (⟨⟨0, 0, false⟩, ⟨0, 0, false⟩, ⟨0, 0, false⟩, 0⟩ : NodeOccData).timestamp ≠
      (1 : ℤ) := by decide
  ⟨hts,
    ((occupancy_prune_spec.1 1 (-10) (fun nd _ => (nd, ⟨-10, 1, true⟩))
        ⟨⟨0, 0, false⟩, ⟨0, 0, false⟩, ⟨0, 0, false⟩, 0⟩ (fun _ => none) hts).1).mpr
      ⟨rfl, by norm_num⟩⟩

end SE
